import Mathlib

set_option maxHeartbeats 1600000
set_option maxRecDepth 2000

/-!
A shallow embedding of OpenLane's configuration-variable coercion engine
(`openlane/config/variable.py`): the type-reflection helpers `is_optional` /
`some_of`, the recursive coercion algorithm `Variable.__process`,
`Variable.compile`, and the process-wide name registry filled by
`Variable.__post_init__`.

Python runtime values are embedded as the inductive `Value`; type expressions
as the inductive `VType`.  Python exceptions become an `Except Err` result:
`Err.valueError` and `Err.missingRequired` both stand for `ValueError`
(`MissingRequiredVariable` subclasses it), while `Err.typeError` stands for
a `TypeError`, which union resolution does *not* catch.

Renderings of `str(type)` in diagnostic slots no theorem depends on are
approximated by `reprType`; Python's `int()`/`Decimal()` constructors and
`shlex.split` are modelled on the value shapes the engine passes them.
-/

namespace OpenLane

/-- A decimal number as produced by Python's `decimal.Decimal`: a signed
mantissa and a power-of-ten exponent, denoting `m * 10 ^ e`. -/
structure Dec where
  m : Int
  e : Int
deriving DecidableEq

/-- Untyped runtime values handled by the coercion engine: the shapes that can
arrive from JSON documents, flat string maps, or already-typed Python objects
(`None`, booleans, ints, decimals, strings, `Path` objects, lists/tuples,
dicts, enum members, and dataclass instances). -/
inductive Value where
  | none
  | bool (b : Bool)
  | int (n : Int)
  | decimal (d : Dec)
  | str (s : String)
  | path (s : String)
  | list (items : List Value)
  | dict (entries : List (Value × Value))
  | enumv (ename : String) (member : String)
  | structInst (sname : String) (fields : List (String × Value))

/-- `value is None`. -/
def Value.isNone : Value → Bool
  | .none => true
  | _ => false

/-- `is_string(value)`: OpenLane's `Path` subclasses `str`, so both count. -/
def Value.isStrVal : Value → Bool
  | .str _ => true
  | .path _ => true
  | _ => false

/-- `isinstance(value, bool)`. -/
def Value.isBool : Value → Bool
  | .bool _ => true
  | _ => false

/-- `isinstance(value, (int, float, Decimal))` — the strict-mode test of the
numeric branch.  Python's `bool` is a subclass of `int`. -/
def Value.isNumericInstance : Value → Bool
  | .int _ => true
  | .bool _ => true
  | .decimal _ => true
  | _ => false

/-- Type expressions as dispatched on by `__process` via `get_origin` /
`get_args` / `issubclass`: scalars, `List`, `Tuple`, `Dict`, `Union`
(`noneT` is the `type(None)` variant making a union optional), `Literal`,
`Enum` classes (a member-name → canonical-value table, several names may share
one value), and dataclasses (ordered fields, each with an optional usable
default). -/
inductive VType where
  | str
  | int
  | decimal
  | bool
  | path
  | noneT
  | list (elem : VType)
  | tuple (elems : List VType)
  | dict (key : VType) (val : VType)
  | union (variants : List VType)
  | literal (allowed : List Value)
  | enum (ename : String) (members : List (String × String))
  | struct (sname : String) (fields : List (String × VType × Option Value))

/-- Whether a type expression is the `type(None)` variant. -/
def VType.isNoneT : VType → Bool
  | .noneT => true
  | _ => false

/-- `is_optional(t)`: `t` is a `Union` one of whose arguments is
`type(None)`. -/
def isOptional : VType → Bool
  | .union ts => ts.any VType.isNoneT
  | _ => false

/-- `some_of(t)`: strip the `type(None)` variant from an optional union,
collapsing to the sole remaining variant when only one is left; non-optional
types are returned unchanged. -/
def someOf : VType → VType
  | .union ts =>
    if ts.any VType.isNoneT then
      match ts.filter (fun a => !a.isNoneT) with
      | [t'] => t'
      | r => .union r
    else .union ts
  | t => t

theorem sizeOf_mem_lt_vtype {t : VType} {ts : List VType} (h : t ∈ ts) :
    sizeOf t < sizeOf ts := by
  induction ts with
  | nil => cases h
  | cons a as ih =>
    rcases List.mem_cons.mp h with h1 | h2
    · subst h1; simp only [List.cons.sizeOf_spec]; omega
    · have := ih h2; simp only [List.cons.sizeOf_spec]; omega

theorem sizeOf_filter_le_vtype (p : VType → Bool) (ts : List VType) :
    sizeOf (ts.filter p) ≤ sizeOf ts := by
  induction ts with
  | nil => simp
  | cons a as ih =>
    by_cases h : p a
    · simp only [List.filter_cons, h, if_true, List.cons.sizeOf_spec]; omega
    · simp only [List.filter_cons, h, if_false, List.cons.sizeOf_spec,
        Bool.false_eq_true]
      omega

theorem sizeOf_filter_lt_vtype (p : VType → Bool) (ts : List VType)
    (h : ∃ x ∈ ts, ¬ p x) : sizeOf (ts.filter p) < sizeOf ts := by
  induction ts with
  | nil => rcases h with ⟨x, hx, _⟩; cases hx
  | cons a as ih =>
    rcases h with ⟨x, hx, hpx⟩
    rcases List.mem_cons.mp hx with h1 | h2
    · subst h1
      have h1 : p x = false := by
        cases hpa : p x
        · rfl
        · exact absurd hpa hpx
      have := sizeOf_filter_le_vtype p as
      have hposx : 0 < sizeOf x := by cases x <;> simp
      simp only [List.filter_cons, h1, Bool.false_eq_true, if_false,
        List.cons.sizeOf_spec]
      omega
    · have hlt := ih ⟨x, h2, hpx⟩
      by_cases hpa : p a
      · simp only [List.filter_cons, hpa, if_true, List.cons.sizeOf_spec]; omega
      · simp only [List.filter_cons, hpa, Bool.false_eq_true, if_false,
          List.cons.sizeOf_spec]
        have hposa : 0 < sizeOf a := by cases a <;> simp
        omega

theorem someOf_sizeOf_lt {t : VType} (h : isOptional t = true) :
    sizeOf (someOf t) < sizeOf t := by
  match t with
  | .union ts =>
    simp only [isOptional] at h
    simp only [someOf, h, if_true]
    have hex : ∃ x ∈ ts, ¬ (!x.isNoneT) = true := by
      rcases List.any_eq_true.mp h with ⟨x, hx, hnx⟩
      exact ⟨x, hx, by simp [hnx]⟩
    have hfl := sizeOf_filter_lt_vtype (fun a => !a.isNoneT) ts hex
    cases hm : ts.filter (fun a => !a.isNoneT) with
    | nil =>
      rw [hm] at hfl
      simp only [VType.union.sizeOf_spec]
      simp at hfl ⊢
      omega
    | cons b bs =>
      cases bs with
      | nil =>
        have hb : b ∈ ts.filter (fun a => !a.isNoneT) := by
          rw [hm]; exact List.mem_singleton.mpr rfl
        have hb2 : b ∈ ts := List.mem_of_mem_filter hb
        have := sizeOf_mem_lt_vtype hb2
        simp only [VType.union.sizeOf_spec]
        omega
      | cons c cs =>
        rw [hm] at hfl
        simp only [VType.union.sizeOf_spec]
        omega

theorem someOf_sizeOf_le (t : VType) : sizeOf (someOf t) ≤ sizeOf t := by
  by_cases h : isOptional t = true
  · exact Nat.le_of_lt (someOf_sizeOf_lt h)
  · have : someOf t = t := by
      match t with
      | .union ts =>
        simp only [isOptional] at h
        simp only [someOf, h, if_false]
        simp at h
        simp [h]
      | .str | .int | .decimal | .bool | .path | .noneT => rfl
      | .list _ | .tuple _ | .dict _ _ | .literal _ | .enum _ _
      | .struct _ _ => rfl
    rw [this]

/-- Equality of a `Dec` with an integer, as exact rationals. -/
def decEqInt (d : Dec) (n : Int) : Bool :=
  if d.e ≥ 0 then d.m * 10 ^ d.e.toNat == n else d.m == n * 10 ^ (-d.e).toNat

/-- Equality of two `Dec`s, as exact rationals. -/
def decEqDec (a b : Dec) : Bool :=
  a.m * 10 ^ (a.e - min a.e b.e).toNat == b.m * 10 ^ (b.e - min a.e b.e).toNat

mutual
/-- Python's `==` on the embedded values: numbers compare across `bool` /
`int` / `Decimal`; strings (and the str-subclass `Path`) compare by text;
containers compare pointwise; everything else is `False` across kinds. -/
def pyEq : Value → Value → Bool
  | .none, .none => true
  | .bool a, .bool b => a == b
  | .bool a, .int b => (if a then (1 : Int) else 0) == b
  | .int a, .bool b => a == (if b then (1 : Int) else 0)
  | .int a, .int b => a == b
  | .decimal d, .int n => decEqInt d n
  | .int n, .decimal d => decEqInt d n
  | .decimal d, .bool b => decEqInt d (if b then 1 else 0)
  | .bool b, .decimal d => decEqInt d (if b then 1 else 0)
  | .decimal a, .decimal b => decEqDec a b
  | .str a, .str b => a == b
  | .str a, .path b => a == b
  | .path a, .str b => a == b
  | .path a, .path b => a == b
  | .list as, .list bs => pyEqList as bs
  | .dict as, .dict bs => pyEqEntries as bs
  | .enumv e1 m1, .enumv e2 m2 => e1 == e2 && m1 == m2
  | .structInst n1 f1, .structInst n2 f2 => n1 == n2 && pyEqFields f1 f2
  | _, _ => false
termination_by a _ => sizeOf a

def pyEqList : List Value → List Value → Bool
  | [], [] => true
  | a :: as, b :: bs => pyEq a b && pyEqList as bs
  | _, _ => false
termination_by as _ => sizeOf as

def pyEqEntries : List (Value × Value) → List (Value × Value) → Bool
  | [], [] => true
  | (k1, v1) :: as, (k2, v2) :: bs => pyEq k1 k2 && pyEq v1 v2 && pyEqEntries as bs
  | _, _ => false
termination_by as _ => sizeOf as

def pyEqFields : List (String × Value) → List (String × Value) → Bool
  | [], [] => true
  | (n1, v1) :: as, (n2, v2) :: bs => n1 == n2 && pyEq v1 v2 && pyEqFields as bs
  | _, _ => false
termination_by as _ => sizeOf as
end

/-- Membership by Python `==`, as used by `value in listLiteral`. -/
def pyMem (v : Value) (vs : List Value) : Bool :=
  vs.any (fun w => pyEq w v)

/-- Digits to a natural number, most significant first. -/
def digitsToNat (cs : List Char) : Nat :=
  cs.foldl (fun a c => a * 10 + (c.toNat - 48)) 0

/-- Rendering of a `Dec` after Python's `str(Decimal)` (plain form for
non-negative-scale numbers, scientific form otherwise). -/
def decString (d : Dec) : String :=
  if d.e = 0 then toString d.m
  else if d.e > 0 then toString d.m ++ "E+" ++ toString d.e
  else
    let neg := d.m < 0
    let digits := toString d.m.natAbs
    let k := (-d.e).toNat
    let padded :=
      if digits.length ≤ k then
        String.mk (List.replicate (k + 1 - digits.length) '0') ++ digits
      else digits
    let n := padded.length
    (if neg then "-" else "") ++ padded.take (n - k) ++ "." ++ padded.drop (n - k)

mutual
/-- Python's `repr` on the embedded values (containers render their elements
by `repr`, strings with quotes). -/
def pyRepr : Value → String
  | .none => "None"
  | .bool b => if b then "True" else "False"
  | .int n => toString n
  | .decimal d => "Decimal(" ++ "\x27" ++ decString d ++ "\x27" ++ ")"
  | .str s => "\x27" ++ s ++ "\x27"
  | .path s => "\x27" ++ s ++ "\x27"
  | .list items => "[" ++ String.intercalate ", " (pyReprList items) ++ "]"
  | .dict entries => "\x7b" ++ String.intercalate ", " (pyReprEntries entries) ++ "\x7d"
  | .enumv e m => "<" ++ e ++ "." ++ m ++ ">"
  | .structInst n fs => n ++ "(" ++ String.intercalate ", " (pyReprFields fs) ++ ")"
termination_by v => sizeOf v

def pyReprList : List Value → List String
  | [] => []
  | v :: vs => pyRepr v :: pyReprList vs
termination_by vs => sizeOf vs

def pyReprEntries : List (Value × Value) → List String
  | [] => []
  | (k, v) :: rest => (pyRepr k ++ ": " ++ pyRepr v) :: pyReprEntries rest
termination_by es => sizeOf es

def pyReprFields : List (String × Value) → List String
  | [] => []
  | (n, v) :: rest => (n ++ "=" ++ pyRepr v) :: pyReprFields rest
termination_by fs => sizeOf fs
end

/-- Python's `str` on the embedded values (as interpolated into the engine's
f-string messages): scalars render plainly, containers fall back to `repr`. -/
def pyStr : Value → String
  | .none => "None"
  | .bool b => if b then "True" else "False"
  | .int n => toString n
  | .decimal d => decString d
  | .str s => s
  | .path s => s
  | .enumv e m => e ++ "." ++ m
  | .list items => pyRepr (.list items)
  | .dict entries => pyRepr (.dict entries)
  | .structInst n fs => pyRepr (.structInst n fs)

/-- Strip surrounding whitespace from a character list (`str.strip`). -/
def charTrim (cs : List Char) : List Char :=
  ((cs.dropWhile Char.isWhitespace).reverse.dropWhile Char.isWhitespace).reverse

/-- Python's `s.split(sep)` for a one-character separator: empty parts are
kept, so a trailing separator yields a trailing empty part. -/
def splitOnChar (sep : Char) : List Char → List (List Char)
  | [] => [[]]
  | c :: rest =>
    if c == sep then [] :: splitOnChar sep rest
    else
      match splitOnChar sep rest with
      | g :: gs => (c :: g) :: gs
      | [] => [[c]]

/-- Python's `int(s)` string parsing: optional surrounding whitespace, an
optional sign, then decimal digits (digit separators are not modelled). -/
def parseIntPy (s : String) : Option Int :=
  let cs := charTrim s.toList
  let signAndRest : Int × List Char :=
    match cs with
    | '+' :: r => (1, r)
    | '-' :: r => (-1, r)
    | r => (1, r)
  let sign := signAndRest.1
  let r := signAndRest.2
  if !r.isEmpty && r.all Char.isDigit then some (sign * (digitsToNat r : Int))
  else Option.none

/-- Python's `Decimal(s)` string parsing: optional surrounding whitespace, an
optional sign, digits with an optional decimal point (at least one digit),
and an optional exponent (special values are not modelled). -/
def parseDecPy (s : String) : Option Dec :=
  let cs := charTrim s.toList
  let signAndRest : Int × List Char :=
    match cs with
    | '+' :: r => (1, r)
    | '-' :: r => (-1, r)
    | r => (1, r)
  let sign := signAndRest.1
  let body := signAndRest.2
  let mantAndRest := body.span (fun c => !(c == 'e' || c == 'E'))
  let mantCs := mantAndRest.1
  let expVal : Option Int :=
    match mantAndRest.2 with
    | [] => some 0
    | _ :: tail =>
      let esignAndRest : Int × List Char :=
        match tail with
        | '+' :: r => (1, r)
        | '-' :: r => (-1, r)
        | r => (1, r)
      if !esignAndRest.2.isEmpty && esignAndRest.2.all Char.isDigit then
        some (esignAndRest.1 * (digitsToNat esignAndRest.2 : Int))
      else Option.none
  match expVal with
  | Option.none => Option.none
  | some ev =>
    match splitOnChar '.' mantCs with
    | [ip] =>
      if !ip.isEmpty && ip.all Char.isDigit then some ⟨sign * (digitsToNat ip : Int), ev⟩
      else Option.none
    | [ip, fp] =>
      if (ip ++ fp).all Char.isDigit && !(ip.isEmpty && fp.isEmpty) then
        some ⟨sign * (digitsToNat (ip ++ fp) : Int), ev - fp.length⟩
      else Option.none
    | _ => Option.none

/-- Failure modes of a Python numeric constructor call, as seen by the
`except (InvalidOperation, TypeError)` clause of the numeric branch:
`uncaughtValue` is a `ValueError` (what `int()` raises on a malformed string
literal), which that clause does *not* catch; `caught` is an
`InvalidOperation` or a `TypeError`, which it does. -/
inductive ConsFail where
  | uncaughtValue (msg : String)
  | caught

/-- Python's `int(value)` on the value shapes the engine passes it: ints and
booleans pass through, decimals truncate toward zero, strings (including
`Path`, a str subclass) parse as an optionally-signed integer literal and
raise `ValueError` with Python's own message otherwise; anything else raises
`TypeError`. -/
def pyIntCons : Value → Except ConsFail Int
  | .int n => .ok n
  | .bool b => .ok (if b then 1 else 0)
  | .decimal d =>
    .ok (if d.e ≥ 0 then d.m * 10 ^ d.e.toNat else Int.tdiv d.m (10 ^ (-d.e).toNat))
  | .str s =>
    match parseIntPy s with
    | some n => .ok n
    | Option.none =>
      .error (.uncaughtValue ("invalid literal for int() with base 10: " ++ "\x27" ++ s ++ "\x27"))
  | .path s =>
    match parseIntPy s with
    | some n => .ok n
    | Option.none =>
      .error (.uncaughtValue ("invalid literal for int() with base 10: " ++ "\x27" ++ s ++ "\x27"))
  | _ => .error .caught

/-- Python's `Decimal(value)` on the value shapes the engine passes it:
numbers convert exactly, strings parse as a decimal literal and raise
`InvalidOperation` otherwise; anything else raises `TypeError`.  Both
failure kinds are caught by the numeric branch. -/
def pyDecCons : Value → Except ConsFail Dec
  | .int n => .ok ⟨n, 0⟩
  | .bool b => .ok ⟨if b then 1 else 0, 0⟩
  | .decimal d => .ok d
  | .str s =>
    match parseDecPy s with
    | some d => .ok d
    | Option.none => .error .caught
  | .path s =>
    match parseDecPy s with
    | some d => .ok d
    | Option.none => .error .caught
  | _ => .error .caught

/-- Lookup in a Python dict modelled as an insertion-ordered association
list, comparing keys by Python `==`. -/
def assocLookup (entries : List (Value × Value)) (k : Value) : Option Value :=
  match entries with
  | [] => Option.none
  | (k', v) :: rest => if pyEq k' k then some v else assocLookup rest k

/-- Python dict assignment `d[k] = v`: overwrite the value at an existing
equal key (keeping the original key object and position), else append. -/
def assocSet (entries : List (Value × Value)) (k v : Value) : List (Value × Value) :=
  match entries with
  | [] => [(k, v)]
  | (k', v') :: rest =>
    if pyEq k' k then (k', v) :: rest else (k', v') :: assocSet rest k v

/-- Python dict deletion `del d[k]`: drop the entry with an equal key. -/
def assocErase (entries : List (Value × Value)) (k : Value) : List (Value × Value) :=
  match entries with
  | [] => []
  | (k', v') :: rest => if pyEq k' k then rest else (k', v') :: assocErase rest k

/-- The trailing-separator fixup of the list/tuple split:
`if len(raw) and raw[-1] == "": raw.pop()`. -/
def dropOneTrailingEmpty (parts : List String) : List String :=
  if !parts.isEmpty && parts.getLast? == some "" then parts.dropLast else parts

/-- Character-level split on a predicate (like `splitOnChar`, keeping empty
parts). -/
def splitPredChars (p : Char → Bool) : List Char → List (List Char)
  | [] => [[]]
  | c :: rest =>
    if p c then [] :: splitPredChars p rest
    else
      match splitPredChars p rest with
      | g :: gs => (c :: g) :: gs
      | [] => [[c]]

/-- Python's argumentless `str.split()`: split on whitespace runs, never
producing empty parts. -/
def pyWhitespaceSplit (s : String) : List String :=
  ((splitPredChars Char.isWhitespace s.toList).filter
    (fun p => !p.isEmpty)).map String.mk

/-- The permissive string→list split of the list/tuple branch: the first
matching delimiter in priority order — comma, then semicolon, then
whitespace — then drop a single trailing empty element. -/
def pyAutoSplit (s : String) : List String :=
  if s.toList.contains ',' then
    dropOneTrailingEmpty ((splitOnChar ',' s.toList).map String.mk)
  else if s.toList.contains ';' then
    dropOneTrailingEmpty ((splitOnChar ';' s.toList).map String.mk)
  else dropOneTrailingEmpty (pyWhitespaceSplit s)

/-- Modelled from the spec: `shlex.split` (Python stdlib, not part of this
repository), used for the permissive "Tcl-style" flat-dictionary form,
"tokenize (shell-word rules when textual)".  Modelled as
whitespace-separated words with single- and double-quote grouping; escape
sequences are not modelled (no claim exercises this tokenizer). -/
def shlexGo : List Char → Option Char → List Char → Bool → List String → List String
  | [], _, cur, started, acc =>
    (if started then String.mk cur.reverse :: acc else acc).reverse
  | c :: rest, some q, cur, _, acc =>
    if c = q then shlexGo rest Option.none cur true acc
    else shlexGo rest (some q) (c :: cur) true acc
  | c :: rest, Option.none, cur, started, acc =>
    if c = Char.ofNat 39 || c = '"' then shlexGo rest (some c) cur true acc
    else if c.isWhitespace then
      if started then shlexGo rest Option.none [] false (String.mk cur.reverse :: acc)
      else shlexGo rest Option.none [] false acc
    else shlexGo rest Option.none (c :: cur) true acc

/-- `shlex.split(s)` (see `shlexGo`). -/
def shlexSplit (s : String) : List String :=
  shlexGo s.toList Option.none [] false []

/-- `EnumClass[name]`: resolve a member name, returning the *canonical*
member (the first declared member with the same value — Python enum aliasing
makes later same-valued names aliases of the first). -/
def enumLookup (members : List (String × String)) (name : String) : Option String :=
  match members.find? (fun p => p.1 == name) with
  | some (_, v) =>
    match members.find? (fun p => p.2 == v) with
    | some (n0, _) => some n0
    | Option.none => Option.none
  | Option.none => Option.none

/-- `type.__name__` for the embedded type expressions, as interpolated into
several messages. -/
def typeName : VType → String
  | .str => "str"
  | .int => "int"
  | .decimal => "Decimal"
  | .bool => "bool"
  | .path => "Path"
  | .noneT => "NoneType"
  | .list _ => "list"
  | .tuple _ => "tuple"
  | .dict _ _ => "dict"
  | .union _ => "Union"
  | .literal _ => "Literal"
  | .enum e _ => e
  | .struct n _ => n

mutual
/-- `repr_type(t)`: the human-readable type rendering used in union and
literal error messages — unwrap the optional wrapper (appending `?`), render
enums as a backquoted name list, unions parenthesized and joined with `｜`,
literals as joined value reprs, generics as `name[args]`. -/
def reprType (t : VType) : String :=
  reprTypeSome (someOf t) (isOptional t)
termination_by 3 * sizeOf t + 2
decreasing_by
  simp_wf
  have := someOf_sizeOf_le t
  omega

def reprTypeSome (s : VType) (opt : Bool) : String :=
  let suffix := if opt then "?" else ""
  match s with
  | .enum _ members =>
    "`" ++ String.intercalate "｜" (members.map Prod.fst) ++ "`" ++ suffix
  | .union ts => "(" ++ String.intercalate "｜" (reprTypeList ts) ++ ")" ++ suffix
  | .literal vs => String.intercalate "｜" (vs.map pyRepr)
  | .list e => "list[" ++ reprType e ++ "]" ++ suffix
  | .tuple ts => "tuple[" ++ String.intercalate ", " (reprTypeList ts) ++ "]" ++ suffix
  | .dict k v => "dict[" ++ reprType k ++ ", " ++ reprType v ++ "]" ++ suffix
  | other => typeName other ++ suffix
termination_by 3 * sizeOf s
decreasing_by
  all_goals simp_wf
  all_goals omega

def reprTypeList : List VType → List String
  | [] => []
  | t :: ts => reprType t :: reprTypeList ts
termination_by ts => 3 * sizeOf ts + 2
decreasing_by
  all_goals simp_wf
  all_goals omega
end

/-- Whether `needle` occurs inside `hay` (character-list infix test). -/
def listIsInit : List Char → List Char → Bool
  | [], _ => true
  | _ :: _, [] => false
  | a :: as, b :: bs => a == b && listIsInit as bs

/-- Substring containment, used to state that an error message does (or does
not) mention the key path. -/
def strContains (hay needle : String) : Bool :=
  hay.toList.tails.any (fun t => listIsInit needle.toList t)

/-- Python exceptions raised by the engine.  `valueError` and
`missingRequired` are both `ValueError`s (`MissingRequiredVariable`
subclasses it) and are caught by union variant trials; `typeError` is a
`TypeError` and is not. -/
inductive Err where
  | valueError (msg : String)
  | missingRequired (msg : String)
  | typeError (msg : String)

/-- Whether `except ValueError` (the union trial loop) catches this error. -/
def Err.caught : Err → Bool
  | .valueError _ => true
  | .missingRequired _ => true
  | .typeError _ => false

/-- `str(e)`: the exception's message. -/
def Err.message : Err → String
  | .valueError m => m
  | .missingRequired m => m
  | .typeError m => m

/-- A deprecated name for a variable: a bare old name, or an old name
together with a value-transform applied on migration. -/
inductive DepName where
  | plain (name : String)
  | transformed (name : String) (f : Value → Value)

/-- The old name itself. -/
def DepName.name : DepName → String
  | .plain n => n
  | .transformed n _ => n

/-- The migration transform (`lambda x: x` when none is declared). -/
def DepName.transform : DepName → Value → Value
  | .plain _ => fun x => x
  | .transformed _ f => f

/-- `Variable`: a named, typed, described, defaulted, alias-aware
configuration declaration (`default = Value.none` embeds Python's
`default=None`). -/
structure Variable where
  name : String
  type : VType
  description : String
  default : Value
  deprecated_names : List DepName
  units : Option String
  pdk : Bool

/-- The alias names declared by a variable, in declaration order. -/
def Variable.aliasNames (v : Variable) : List String :=
  v.deprecated_names.map DepName.name

/-- Interpolation helper for the engine's f-string messages: `'{s}'`. -/
def quoted (s : String) : String := "\x27" ++ s ++ "\x27"

/-- The message of `MissingRequiredVariable(variable)`, which depends on the
variable's `pdk` flag and canonical name. -/
def missingRequiredMessage (v : Variable) : String :=
  if v.pdk then
    "Required PDK variable " ++ quoted v.name ++
      " did not get a specified value. This PDK may be incompatible with your flow."
  else
    "Required variable " ++ quoted v.name ++ " did not get a specified value."

/-- The header line of the union-exhausted error. -/
def unionHeader (keyPath : String) (t : VType) : String :=
  "Value for " ++ quoted keyPath ++ " is invalid for union " ++ reprType t ++ ":"

/-- Modelled from the spec: `Path.validate` (defined in `openlane.common`,
not under `src/`) — the value "must be a non-empty textual path reference
satisfying a validity predicate (no control characters, well-formed
filesystem reference)". -/
def pathOk (s : String) : Bool :=
  !s.isEmpty && s.toList.all (fun c => !(c.toNat < 32 || c.toNat == 127))

/-- Building the dict from Tcl-style flat components:
`raw[key] = val` for consecutive pairs, with dict-assignment semantics. -/
def tclPairs : List Value → List (Value × Value) → List (Value × Value)
  | k :: val :: rest, acc => tclPairs rest (assocSet acc k val)
  | _, acc => acc

theorem vtype_sizeOf_pos (t : VType) : 0 < sizeOf t := by
  cases t <;> simp

/-- The shared input normalization of the list/tuple branch: accept a
native ordered sequence as-is; in permissive mode split a textual value
(first matching delimiter comma / semicolon / whitespace, one trailing
empty dropped), in strict mode refuse it; reject any other shape. -/
def coerceToItems (keyPath : String) (value : Value) (permissive : Bool) :
    Except Err (List Value) :=
  match value with
  | .list items => .ok items
  | .str s =>
    if !permissive then
      .error (.valueError ("Refusing to automatically convert string at " ++
        quoted keyPath ++ " to list"))
    else .ok ((pyAutoSplit s).map Value.str)
  | .path s =>
    if !permissive then
      .error (.valueError ("Refusing to automatically convert string at " ++
        quoted keyPath ++ " to list"))
    else .ok ((pyAutoSplit s).map Value.str)
  | other =>
    .error (.valueError ("List provided for variable " ++ quoted keyPath ++
      " is invalid: " ++ pyStr other))

/-- The input normalization of the dict branch: accept a native mapping
as-is; in permissive mode tokenize a sequence or textual value (shell-word
rules when textual) into Tcl-style flat key/value pairs, failing on an odd
token count; reject any other shape. -/
def coerceToEntries (keyPath : String) (value : Value) (keyT valT : VType)
    (permissive : Bool) : Except Err (List (Value × Value)) :=
  match value with
  | .dict entries => .ok entries
  | .list comps =>
    if !permissive then
      .error (.valueError ("Refusing to automatically convert string at " ++
        quoted keyPath ++ " to dict"))
    else if comps.length % 2 ≠ 0 then
      .error (.valueError ("Tcl-style flat dictionary provided for variable " ++
        quoted keyPath ++ " is invalid: uneven number of components (" ++
        toString comps.length ++ ")"))
    else .ok (tclPairs comps [])
  | .str s =>
    if !permissive then
      .error (.valueError ("Refusing to automatically convert string at " ++
        quoted keyPath ++ " to dict"))
    else
      let comps := (shlexSplit s).map Value.str
      if comps.length % 2 ≠ 0 then
        .error (.valueError ("Tcl-style flat dictionary provided for variable " ++
          quoted keyPath ++ " is invalid: uneven number of components (" ++
          toString comps.length ++ ")"))
      else .ok (tclPairs comps [])
  | .path s =>
    if !permissive then
      .error (.valueError ("Refusing to automatically convert string at " ++
        quoted keyPath ++ " to dict"))
    else
      let comps := (shlexSplit s).map Value.str
      if comps.length % 2 ≠ 0 then
        .error (.valueError ("Tcl-style flat dictionary provided for variable " ++
          quoted keyPath ++ " is invalid: uneven number of components (" ++
          toString comps.length ++ ")"))
      else .ok (tclPairs comps [])
  | other =>
    .error (.valueError ("Value provided for variable " ++ quoted keyPath ++
      " of type " ++ reprType (.dict keyT valT) ++ " is invalid: " ++
      quoted (pyStr other)))

/-- The `Path` scalar branch: unwrap a single-element sequence (one-file
glob), build the path, and validate it. -/
def processPathVal (keyPath : String) (value : Value) : Except Err Value :=
  let value2 :=
    match value with
    | .list [x] => x
    | other => other
  let pstr := pyStr value2
  if pathOk pstr then .ok (.path pstr)
  else
    .error (.valueError ("Path provided for variable " ++ quoted keyPath ++
      " is invalid: " ++ quoted pstr))

/-- The `bool` scalar branch: strict mode demands a native boolean; the
canonical truthy/falsy token sets are compared with Python `==`. -/
def processBoolVal (keyPath : String) (value : Value) (permissive : Bool) :
    Except Err Value :=
  if !permissive && !value.isBool then
    .error (.valueError ("Refusing to automatically convert " ++
      quoted (pyStr value) ++ " at " ++ quoted keyPath ++ " to a Boolean"))
  else if pyMem value [.str "1", .str "true", .str "True", .int 1, .bool true] then
    .ok (.bool true)
  else if pyMem value [.str "0", .str "false", .str "False", .int 0, .bool false] then
    .ok (.bool false)
  else
    .error (.valueError ("Value provided for variable " ++ quoted keyPath ++
      " of type bool is invalid: " ++ quoted (pyStr value)))

/-- The enumerated-type branch: a member of the same enumeration passes
through; otherwise the value is resolved as a member *name* (string lookup;
unhashable values raise `TypeError`, anything unresolvable the enum
`KeyError` converted to a `ValueError`). -/
def processEnumVal (keyPath : String) (ename : String)
    (members : List (String × String)) (value : Value) : Except Err Value :=
  match value with
  | .enumv vename vmember =>
    if vename == ename then .ok (.enumv vename vmember)
    else
      .error (.valueError ("Variable provided for variable " ++ quoted keyPath ++
        " of enumerated type " ++ ename ++ " is invalid: " ++
        quoted (pyStr (.enumv vename vmember))))
  | .str s =>
    match enumLookup members s with
    | some canon => .ok (.enumv ename canon)
    | Option.none =>
      .error (.valueError ("Variable provided for variable " ++ quoted keyPath ++
        " of enumerated type " ++ ename ++ " is invalid: " ++ quoted s))
  | .path s =>
    match enumLookup members s with
    | some canon => .ok (.enumv ename canon)
    | Option.none =>
      .error (.valueError ("Variable provided for variable " ++ quoted keyPath ++
        " of enumerated type " ++ ename ++ " is invalid: " ++ quoted s))
  | .list l => .error (.typeError "unhashable type: list")
  | .dict d => .error (.typeError "unhashable type: dict")
  | other =>
    .error (.valueError ("Variable provided for variable " ++ quoted keyPath ++
      " of enumerated type " ++ ename ++ " is invalid: " ++
      quoted (pyStr other)))

/-- The `str` scalar branch: only native textual values are accepted, never
auto-coerced. -/
def processStrVal (keyPath : String) (value : Value) : Except Err Value :=
  if !value.isStrVal then
    .error (.valueError ("Refusing to automatically convert value at " ++
      quoted keyPath ++ " to a string"))
  else .ok (.str (pyStr value))

/-- The `int` scalar branch: attempt `int(value)` first — an
`InvalidOperation`/`TypeError` is converted to the key-path-prefixed
message, but the `ValueError` `int()` raises on a malformed string literal
escapes with Python's own message; a successful construction from a
non-numeric value is then refused in strict mode. -/
def processIntVal (keyPath : String) (value : Value) (permissive : Bool) :
    Except Err Value :=
  match pyIntCons value with
  | .error (.uncaughtValue m) => .error (.valueError m)
  | .error .caught =>
    .error (.valueError ("Value provided for variable " ++ quoted keyPath ++
      " of type int is invalid: " ++ quoted (pyStr value)))
  | .ok n =>
    if !permissive && !value.isNumericInstance then
      .error (.valueError ("Refusing to automatically convert value at " ++
        quoted keyPath ++ " to a int"))
    else .ok (.int n)

/-- The `Decimal` scalar branch: like `int`, but `Decimal()` signals a
malformed literal with `InvalidOperation`, which *is* caught and converted
to the key-path-prefixed message. -/
def processDecimalVal (keyPath : String) (value : Value) (permissive : Bool) :
    Except Err Value :=
  match pyDecCons value with
  | .error (.uncaughtValue m) => .error (.valueError m)
  | .error .caught =>
    .error (.valueError ("Value provided for variable " ++ quoted keyPath ++
      " of type Decimal is invalid: " ++ quoted (pyStr value)))
  | .ok d =>
    if !permissive && !value.isNumericInstance then
      .error (.valueError ("Refusing to automatically convert value at " ++
        quoted keyPath ++ " to a Decimal"))
    else .ok (.decimal d)

/-- The `Literal` branch: exact membership among the declared constants. -/
def processLiteralVal (keyPath : String) (allowed : List Value) (value : Value) :
    Except Err Value :=
  if pyMem value allowed then .ok value
  else
    .error (.valueError ("Value for " ++ quoted keyPath ++ " is invalid for " ++
      reprType (.literal allowed) ++ ": " ++ quoted (pyStr value)))

mutual
/-- `Variable.__process`: the null-handling prologue.  An explicit null is
only legal for optional types; an absent value falls back to the declared
default (re-entering, explicitly specified, one level deeper — the default
is non-null there, so that call re-enters at the type dispatch), then to a
missing-required failure (the distinguished `MissingRequiredVariable` at
depth 0), and otherwise to a successful null. -/
def process (v : Variable) (keyPath : String) (value : Value)
    (validatingType : VType) (default : Value) (explicitlySpecified : Bool)
    (permissive : Bool) (depth : Nat) : Except Err Value :=
  if value.isNone then
    if explicitlySpecified then
      if !(isOptional validatingType) then
        .error (.valueError ("Non-optional variable " ++ quoted keyPath ++
          " explicitly assigned a null value."))
      else .ok Value.none
    else if default.isNone then
      if !(isOptional validatingType) then
        if depth = 0 then .error (.missingRequired (missingRequiredMessage v))
        else .error (.valueError (quoted keyPath ++ " must be non-null."))
      else .ok Value.none
    else
      processSome v keyPath default validatingType permissive (depth + 1)
  else processSome v keyPath value validatingType permissive depth
termination_by (sizeOf validatingType, 1)
decreasing_by
  all_goals exact Prod.Lex.right _ (by omega)

/-- The type-dispatch part of `__process`, entered with a non-null value;
an optional wrapper is unwrapped by re-entering on `some_of` (the source
reassigns `validating_type` in place, which is equivalent since the
null-handling prologue is inert for non-null values).  The tuple result is
embedded as `Value.list` like the list result. -/
def processSome (v : Variable) (keyPath : String) (value : Value)
    (validatingType : VType) (permissive : Bool) (depth : Nat) :
    Except Err Value :=
  if hopt : isOptional validatingType then
    processSome v keyPath value (someOf validatingType) permissive depth
  else
    match validatingType with
    | .list elemT =>
      match coerceToItems keyPath value permissive with
      | .error e => .error e
      | .ok items =>
        (processListItems v keyPath items 0 elemT permissive depth).map Value.list
    | .tuple elemTs =>
      match coerceToItems keyPath value permissive with
      | .error e => .error e
      | .ok items =>
        if items.length ≠ elemTs.length then
          .error (.valueError ("Value provided for variable " ++ quoted keyPath ++
            " of type " ++ reprType (.tuple elemTs) ++ " is invalid: (" ++
            toString items.length ++ "/" ++ toString elemTs.length ++
            ") tuple entries provided"))
        else (processTupleItems v keyPath items elemTs 0 permissive depth).map Value.list
    | .dict keyT valT =>
      match coerceToEntries keyPath value keyT valT permissive with
      | .error e => .error e
      | .ok entries =>
        (processDictEntries v keyPath entries keyT valT permissive depth []).map
          Value.dict
    | .union variants =>
      processUnionVariants v keyPath value variants
        (unionHeader keyPath (.union variants)) permissive depth []
    | .literal allowed => processLiteralVal keyPath allowed value
    | .struct sname flds =>
      match value with
      | .structInst iname ifields =>
        if iname == sname then .ok (.structInst iname ifields)
        else
          .error (.valueError ("Value provided for deserializable class " ++
            reprType (.struct sname flds) ++ " at " ++ quoted keyPath ++
            " is not a dictionary."))
      | .dict entries => processFields v keyPath sname flds entries [] permissive depth
      | _ =>
        .error (.valueError ("Value provided for deserializable class " ++
          reprType (.struct sname flds) ++ " at " ++ quoted keyPath ++
          " is not a dictionary."))
    | .path => processPathVal keyPath value
    | .bool => processBoolVal keyPath value permissive
    | .enum ename members => processEnumVal keyPath ename members value
    | .str => processStrVal keyPath value
    | .int => processIntVal keyPath value permissive
    | .decimal => processDecimalVal keyPath value permissive
    | .noneT => .error (.typeError "NoneType takes no arguments")
termination_by (sizeOf validatingType, 0)
decreasing_by
  all_goals simp_wf
  all_goals first
    | (exact Prod.Lex.left _ _ (someOf_sizeOf_lt hopt))
    | (apply Prod.Lex.left; omega)
    | (apply Prod.Lex.left
       have h1 := vtype_sizeOf_pos keyT
       have h2 := vtype_sizeOf_pos valT
       omega)

/-- The element loop of the list branch: every element is validated against
the single declared element type, with key path `base[i]`. -/
def processListItems (v : Variable) (keyPath : String) (items : List Value)
    (i : Nat) (elemT : VType) (permissive : Bool) (depth : Nat) :
    Except Err (List Value) :=
  match items with
  | [] => .ok []
  | item :: rest =>
    match process v (keyPath ++ "[" ++ toString i ++ "]") item elemT Value.none
        true permissive (depth + 1) with
    | .error e => .error e
    | .ok r =>
      match processListItems v keyPath rest (i + 1) elemT permissive depth with
      | .error e => .error e
      | .ok rs => .ok (r :: rs)
termination_by (sizeOf elemT, 2 + items.length)
decreasing_by
  all_goals simp_wf
  · exact Prod.Lex.right _ (by omega)
  · exact Prod.Lex.right _ (by omega)

/-- The element loop of the tuple branch: elements pair positionally with
the per-index declared types (the call site has already checked that the
lengths agree, so plain zipping agrees with `zip_first`). -/
def processTupleItems (v : Variable) (keyPath : String) (items : List Value)
    (elemTs : List VType) (i : Nat) (permissive : Bool) (depth : Nat) :
    Except Err (List Value) :=
  match items, elemTs with
  | item :: rest, ty :: tys =>
    match process v (keyPath ++ "[" ++ toString i ++ "]") item ty Value.none
        true permissive (depth + 1) with
    | .error e => .error e
    | .ok r =>
      match processTupleItems v keyPath rest tys (i + 1) permissive depth with
      | .error e => .error e
      | .ok rs => .ok (r :: rs)
  | _, _ => .ok []
termination_by (sizeOf elemTs, 2)
decreasing_by
  all_goals simp_wf
  · apply Prod.Lex.left; omega
  · apply Prod.Lex.left; omega

/-- The entry loop of the dict branch: each key coerces to the declared key
type (same key path), each value to the declared value type with key path
`base.<coercedKey>`; results are stored with dict-assignment semantics. -/
def processDictEntries (v : Variable) (keyPath : String)
    (entries : List (Value × Value)) (keyT valT : VType) (permissive : Bool)
    (depth : Nat) (acc : List (Value × Value)) :
    Except Err (List (Value × Value)) :=
  match entries with
  | [] => .ok acc
  | (key, val) :: rest =>
    match process v keyPath key keyT Value.none true permissive (depth + 1) with
    | .error e => .error e
    | .ok keyV =>
      match process v (keyPath ++ "." ++ pyStr keyV) val valT Value.none true
          permissive (depth + 1) with
      | .error e => .error e
      | .ok valV =>
        processDictEntries v keyPath rest keyT valT permissive depth
          (assocSet acc keyV valV)
termination_by (sizeOf keyT + sizeOf valT, 2 + entries.length)
decreasing_by
  all_goals simp_wf
  · apply Prod.Lex.left
    have := vtype_sizeOf_pos valT
    omega
  · apply Prod.Lex.left
    have := vtype_sizeOf_pos keyT
    omega
  · exact Prod.Lex.right _ (by omega)

/-- The variant trial loop of the union branch: try each variant in order;
the first non-null success wins; `ValueError`-class failures are collected
(tab-indented) and aggregated under the union header when the loop runs
out; a `TypeError` escapes uncaught. -/
def processUnionVariants (v : Variable) (keyPath : String) (value : Value)
    (variants : List VType) (header : String) (permissive : Bool) (depth : Nat)
    (errors : List String) : Except Err Value :=
  match variants with
  | [] => .error (.valueError (String.intercalate "\n" (header :: errors)))
  | t :: rest =>
    match process v keyPath value t Value.none true permissive (depth + 1) with
    | .ok r =>
      if r.isNone then
        processUnionVariants v keyPath value rest header permissive depth errors
      else .ok r
    | .error e =>
      if e.caught then
        processUnionVariants v keyPath value rest header permissive depth
          (errors ++ ["\t" ++ e.message])
      else .error e
termination_by (sizeOf variants, 2)
decreasing_by
  all_goals simp_wf
  · apply Prod.Lex.left; omega
  · apply Prod.Lex.left; omega
  · apply Prod.Lex.left; omega

/-- The field loop of the struct (dataclass) branch: for every declared
field in order, look up a same-named key in the working copy (marking it
explicitly specified and consuming it) or fall back to the field's usable
default; after the loop, leftover keys fail the whole operation, else the
instance is constructed from the processed fields. -/
def processFields (v : Variable) (keyPath : String) (sname : String)
    (flds : List (String × VType × Option Value)) (working : List (Value × Value))
    (kwargs : List (String × Value)) (permissive : Bool) (depth : Nat) :
    Except Err Value :=
  match flds with
  | [] =>
    if working.isEmpty then .ok (.structInst sname kwargs)
    else if working.all (fun kv => kv.1.isStrVal) then
      .error (.valueError ("One or more keys unrecognized for dataclass " ++
        sname ++ ": " ++
        String.intercalate " " (working.map (fun kv => pyStr kv.1))))
    else .error (.typeError "sequence item: expected str instance")
  | (fname, ftype, fdefault) :: rest =>
    let lookedUp := assocLookup working (Value.str fname)
    match process v (keyPath ++ "." ++ fname) (lookedUp.getD Value.none) ftype
        (fdefault.getD Value.none) lookedUp.isSome permissive (depth + 1) with
    | .error e => .error e
    | .ok pv =>
      processFields v keyPath sname rest
        (if lookedUp.isSome then assocErase working (Value.str fname) else working)
        (kwargs ++ [(fname, pv)]) permissive depth
termination_by (sizeOf flds, 2)
decreasing_by
  all_goals simp_wf
  · apply Prod.Lex.left; omega
  · apply Prod.Lex.left; omega
end

/-- Modelled from the spec: `GenericDict.check` (defined in
`openlane.common`, not under `src/`) — the presence/value lookup `compile`
uses to locate "a value (by canonical name or deprecated alias)": when the
key is present it returns the key as the presence witness together with the
stored value (which may itself be null), else `(None, None)`. -/
def checkKey (cfg : List (String × Value)) (k : String) : Option String × Value :=
  match cfg.find? (fun p => p.1 == k) with
  | some (_, val) => (some k, val)
  | Option.none => (Option.none, Value.none)

/-- The deprecation warning recorded for a matched alias. -/
def deprecationWarning (oldName newName : String) : String :=
  "The configuration variable " ++ quoted oldName ++
    " is deprecated. Please check the docs for the usage on the replacement variable " ++
    quoted newName ++ "."

/-- The `while` loop of `Variable.compile`: scan the deprecated aliases in
order; for the first alias present, record one deprecation warning and
apply the alias's transform to a non-null stored value. -/
def resolveDeprecatedGo (vname : String) (cfg : List (String × Value)) :
    List DepName → List String → Option String × Value × List String
  | [], warnings => (Option.none, Value.none, warnings)
  | d :: rest, warnings =>
    match checkKey cfg d.name with
    | (some e, value) =>
      (some e,
        (if value.isNone then value else d.transform value),
        warnings ++ [deprecationWarning d.name vname])
    | (Option.none, _) => resolveDeprecatedGo vname cfg rest warnings

/-- `Variable.compile`: resolve the candidate value by deprecated alias,
falling back to the canonical name; hand it to the coercer together with
the declared default and type, with `explicitly_specified` set to whether
anything was found; return the presence witness and coerced value (or the
coercion failure), plus the final warning list. -/
def Variable.compile (v : Variable) (cfg : List (String × Value))
    (warnings : List String) (permissive : Bool) :
    Except Err (Option String × Value) × List String :=
  let r1 := resolveDeprecatedGo v.name cfg v.deprecated_names warnings
  let resolved :=
    match r1.1 with
    | Option.none => (checkKey cfg v.name, r1.2.2)
    | some e => ((some e, r1.2.1), r1.2.2)
  match process v v.name resolved.1.2 v.type v.default resolved.1.1.isSome
      permissive 0 with
  | .ok p => (.ok (resolved.1.1, p), resolved.2)
  | .error e => (.error e, resolved.2)

/-- The registration `Variable.__post_init__` performs on the process-wide
name registry `Variable.known_variable_names`: add the canonical name, then
every deprecated alias name. -/
def registerVariable (v : Variable) (registry : Finset String) : Finset String :=
  v.aliasNames.foldl (fun acc n => insert n acc) (insert v.name registry)

/-- A plain sample variable used in concrete evaluations. -/
def sampleVariable : Variable :=
  ⟨"X", .union [.int, .str], "", Value.none, [], Option.none, false⟩

/-- C3: for every type expression and an explicitly specified null value,
`process` fails with the null-on-required error if the type is not optional
and returns null successfully if it is — before any type dispatch (the
equation holds uniformly in the type, for every default, mode and depth). -/
theorem c3_explicit_null (v : Variable) (keyPath : String) (t : VType)
    (default : Value) (permissive : Bool) (depth : Nat) :
    process v keyPath Value.none t default true permissive depth =
      (if isOptional t then Except.ok Value.none
       else Except.error (Err.valueError ("Non-optional variable " ++
         quoted keyPath ++ " explicitly assigned a null value."))) := by
  rw [process]
  by_cases h : isOptional t <;> simp [Value.isNone, h]

/-- C4: for every type expression, a null value that was not explicitly
specified falls back to the declared default when one is present
(re-entering `process` on the default, explicitly specified, one level
deeper, so the default itself is validated); otherwise a non-optional type
fails — with the distinguished `MissingRequiredVariable` at depth 0 and the
generic "must be non-null" error at positive depth — and an optional type
yields null. -/
theorem c4_implicit_null (v : Variable) (keyPath : String) (t : VType)
    (default : Value) (permissive : Bool) (depth : Nat) :
    process v keyPath Value.none t default false permissive depth =
      (if default.isNone then
        (if isOptional t then Except.ok Value.none
         else if depth = 0 then
           Except.error (Err.missingRequired (missingRequiredMessage v))
         else Except.error (Err.valueError (quoted keyPath ++ " must be non-null.")))
       else process v keyPath default t Value.none true permissive (depth + 1)) := by
  have hnone : Value.isNone Value.none = true := rfl
  by_cases hd : default.isNone
  · rw [process]
    by_cases h : isOptional t
    · simp [hnone, hd, h]
    · by_cases hdep : depth = 0 <;> simp [hnone, hd, h, hdep]
  · have hd' : default.isNone = false := by
      cases hh : default.isNone
      · rfl
      · exact absurd hh hd
    rw [process, process]
    simp [hnone, hd']

theorem processListItems_str (v : Variable) (keyPath : String)
    (parts : List String) (i : Nat) (permissive : Bool) (depth : Nat) :
    processListItems v keyPath (parts.map Value.str) i .str permissive depth =
      .ok (parts.map Value.str) := by
  induction parts generalizing i with
  | nil => simp [processListItems]
  | cons p ps ih =>
    simp only [List.map_cons]
    rw [processListItems]
    have h1 : process v (keyPath ++ "[" ++ toString i ++ "]") (.str p) .str
        Value.none true permissive (depth + 1) = .ok (.str p) := by
      rw [process]
      simp [Value.isNone, processSome, isOptional, processStrVal, Value.isStrVal,
        pyStr]
    simp [h1, ih]

/-- C5: in permissive mode a textual raw value for a `List` or `Tuple` type
is split by the first matching delimiter in priority order (comma,
semicolon, whitespace) with one trailing empty element dropped
(`pyAutoSplit`, the translation of that split): the shared normalization
`coerceToItems` (used by both the list and the tuple branch) returns
exactly those parts, a `List(String)` type coerces any textual value to
exactly those parts, and concretely `"a,b,c"` yields `["a","b","c"]`,
`"a,b,"` yields `["a","b"]` (trailing empty dropped), and
`Tuple(String, String)` on `"x,y"` yields `("x","y")`. -/
theorem c5_permissive_text_split :
    (∀ (keyPath s : String),
      coerceToItems keyPath (.str s) true = .ok ((pyAutoSplit s).map Value.str)) ∧
    (∀ (v : Variable) (keyPath s : String) (d : Value) (ex : Bool) (dep : Nat),
      process v keyPath (.str s) (.list .str) d ex true dep =
        .ok (.list ((pyAutoSplit s).map Value.str))) ∧
    (∀ (v : Variable) (keyPath : String) (d : Value) (ex : Bool) (dep : Nat),
      process v keyPath (.str "a,b,c") (.list .str) d ex true dep =
        .ok (.list [.str "a", .str "b", .str "c"])) ∧
    (∀ (v : Variable) (keyPath : String) (d : Value) (ex : Bool) (dep : Nat),
      process v keyPath (.str "a,b,") (.list .str) d ex true dep =
        .ok (.list [.str "a", .str "b"])) ∧
    (∀ (v : Variable) (keyPath : String) (d : Value) (ex : Bool) (dep : Nat),
      process v keyPath (.str "x,y") (.tuple [.str, .str]) d ex true dep =
        .ok (.list [.str "x", .str "y"])) := by
  have hcoerce : ∀ (keyPath s : String),
      coerceToItems keyPath (.str s) true = .ok ((pyAutoSplit s).map Value.str) := by
    intro keyPath s
    simp [coerceToItems]
  have hlist : ∀ (v : Variable) (keyPath s : String) (d : Value) (ex : Bool)
      (dep : Nat),
      process v keyPath (.str s) (.list .str) d ex true dep =
        .ok (.list ((pyAutoSplit s).map Value.str)) := by
    intro v keyPath s d ex dep
    rw [process]
    simp only [Value.isNone, Bool.false_eq_true, if_false]
    rw [processSome]
    simp [isOptional, hcoerce, processListItems_str, Except.map]
  refine ⟨hcoerce, hlist, ?_, ?_, ?_⟩
  · intro v keyPath d ex dep
    have := hlist v keyPath "a,b,c" d ex dep
    rwa [show pyAutoSplit "a,b,c" = ["a", "b", "c"] from rfl] at this
  · intro v keyPath d ex dep
    have := hlist v keyPath "a,b," d ex dep
    rwa [show pyAutoSplit "a,b," = ["a", "b"] from rfl] at this
  · intro v keyPath d ex dep
    rw [process]
    simp only [Value.isNone, Bool.false_eq_true, if_false]
    rw [processSome]
    have hx : pyAutoSplit "x,y" = ["x", "y"] := rfl
    have h1 : ∀ (i : Nat),
        process v (keyPath ++ "[" ++ toString i ++ "]") (.str "x") .str
          Value.none true true (dep + 1) = .ok (.str "x") := by
      intro i
      rw [process]
      simp [Value.isNone, processSome, isOptional, processStrVal, Value.isStrVal,
        pyStr]
    have h2 : ∀ (i : Nat),
        process v (keyPath ++ "[" ++ toString i ++ "]") (.str "y") .str
          Value.none true true (dep + 1) = .ok (.str "y") := by
      intro i
      rw [process]
      simp [Value.isNone, processSome, isOptional, processStrVal, Value.isStrVal,
        pyStr]
    simp [isOptional, hcoerce, hx, processTupleItems, h1, h2, Except.map]

theorem processUnionVariants_first_success (v : Variable) (keyPath : String)
    (value : Value) (ts1 : List VType) (t : VType) (ts2 : List VType)
    (header : String) (permissive : Bool) (depth : Nat) (errors : List String)
    (r : Value)
    (hfail : ∀ t' ∈ ts1, ∃ e : Err,
      process v keyPath value t' Value.none true permissive (depth + 1) = .error e ∧
        e.caught = true)
    (hok : process v keyPath value t Value.none true permissive (depth + 1) = .ok r)
    (hr : r.isNone = false) :
    processUnionVariants v keyPath value (ts1 ++ t :: ts2) header permissive depth
      errors = .ok r := by
  induction ts1 generalizing errors with
  | nil =>
    rw [List.nil_append, processUnionVariants]
    simp [hok, hr]
  | cons a as ih =>
    rw [List.cons_append, processUnionVariants]
    rcases hfail a (by simp) with ⟨e, he, hc⟩
    simp only [he, hc, if_true]
    exact ih _ (fun t' ht' => hfail t' (List.mem_cons_of_mem a ht'))

theorem processUnionVariants_all_fail (v : Variable) (keyPath : String)
    (value : Value) (ts : List VType) (msgs : List String) (header : String)
    (permissive : Bool) (depth : Nat) (errors : List String)
    (h : List.Forall₂ (fun t' m => ∃ e : Err,
      process v keyPath value t' Value.none true permissive (depth + 1) = .error e ∧
        e.caught = true ∧ e.message = m) ts msgs) :
    processUnionVariants v keyPath value ts header permissive depth errors =
      .error (.valueError (String.intercalate "\n"
        (header :: (errors ++ msgs.map (fun m => "\t" ++ m))))) := by
  induction h generalizing errors with
  | nil => simp [processUnionVariants]
  | @cons t' m ts' ms' hrel hrest ih =>
    rcases hrel with ⟨e, he, hc, hm⟩
    rw [processUnionVariants]
    simp only [he, hc, if_true]
    rw [ih]
    subst hm
    simp

/-- C1: union resolution after optional-unwrap tries the variants in
declared order: (1) if every variant before some variant `t` fails with a
caught validation error and `t` coerces to a non-null result `r`, the union
yields `r`; (2) if every variant fails with a caught validation error, the
union fails with one combined error aggregating the header line and one
tab-indented sub-error per failed variant, in order; (3) concretely,
`Union(Integer, String)` on the raw value `"5"` in permissive mode yields
the Integer `5`, not the String `"5"`. -/
theorem c1_union_order :
    (∀ (v : Variable) (keyPath : String) (value : Value) (ts1 : List VType)
      (t : VType) (ts2 : List VType) (r d : Value) (ex permissive : Bool)
      (dep : Nat),
      value.isNone = false →
      isOptional (.union (ts1 ++ t :: ts2)) = false →
      (∀ t' ∈ ts1, ∃ e : Err,
        process v keyPath value t' Value.none true permissive (dep + 1) =
          .error e ∧ e.caught = true) →
      process v keyPath value t Value.none true permissive (dep + 1) = .ok r →
      r.isNone = false →
      process v keyPath value (.union (ts1 ++ t :: ts2)) d ex permissive dep =
        .ok r) ∧
    (∀ (v : Variable) (keyPath : String) (value : Value) (ts : List VType)
      (msgs : List String) (d : Value) (ex permissive : Bool) (dep : Nat),
      value.isNone = false →
      isOptional (.union ts) = false →
      List.Forall₂ (fun t' m => ∃ e : Err,
        process v keyPath value t' Value.none true permissive (dep + 1) =
          .error e ∧ e.caught = true ∧ e.message = m) ts msgs →
      process v keyPath value (.union ts) d ex permissive dep =
        .error (.valueError (String.intercalate "\n"
          (unionHeader keyPath (.union ts) :: msgs.map (fun m => "\t" ++ m))))) ∧
    process sampleVariable "X" (.str "5") (.union [.int, .str]) Value.none true
      true 0 = .ok (.int 5) := by
  refine ⟨?_, ?_, ?_⟩
  · intro v keyPath value ts1 t ts2 r d ex permissive dep hv hopt hfail hok hr
    rw [process]
    simp only [hv, Bool.false_eq_true, if_false]
    rw [processSome]
    simp only [hopt, Bool.false_eq_true, dite_false]
    exact processUnionVariants_first_success v keyPath value ts1 t ts2 _
      permissive dep [] r hfail hok hr
  · intro v keyPath value ts msgs d ex permissive dep hv hopt hall
    rw [process]
    simp only [hv, Bool.false_eq_true, if_false]
    rw [processSome]
    simp only [hopt, Bool.false_eq_true, dite_false]
    have := processUnionVariants_all_fail v keyPath value ts msgs
      (unionHeader keyPath (.union ts)) permissive dep [] hall
    simpa using this
  · have h1 : pyIntCons (.str "5") = .ok 5 := rfl
    simp [process, processSome, processUnionVariants, processIntVal, isOptional,
      unionHeader, Value.isNone, VType.isNoneT, h1, Value.isNumericInstance,
      Err.caught]

/-- Witness for `c1_union_order`: with raw value `"zz"`,
`Union(Integer, String)` resolves to the String `"zz"` after the Integer
variant fails, and `Union(Integer, Boolean)` exhausts with both sub-errors
aggregated. -/
theorem c1_union_order_witness :
    process sampleVariable "W" (.str "zz") (.union [.int, .str]) Value.none true
      true 0 = .ok (.str "zz") ∧
    process sampleVariable "W" (.str "zz") (.union [.int, .bool]) Value.none true
      true 0 = .error (.valueError (String.intercalate "\n"
        (unionHeader "W" (.union [.int, .bool]) ::
          (["invalid literal for int() with base 10: " ++ quoted "zz",
            "Value provided for variable " ++ quoted "W" ++
              " of type bool is invalid: " ++ quoted "zz"].map
            (fun m => "\t" ++ m))))) := by
  have hintfail : process sampleVariable "W" (.str "zz") .int Value.none true
      true 1 = .error (.valueError
        ("invalid literal for int() with base 10: " ++ quoted "zz")) := by
    rw [process]
    have h1 : pyIntCons (.str "zz") = .error (.uncaughtValue
        ("invalid literal for int() with base 10: " ++ quoted "zz")) := rfl
    simp [Value.isNone, processSome, isOptional, processIntVal, h1]
  have hstrok : process sampleVariable "W" (.str "zz") .str Value.none true
      true 1 = .ok (.str "zz") := by
    rw [process]
    simp [Value.isNone, processSome, isOptional, processStrVal, Value.isStrVal,
      pyStr]
  have hboolfail : process sampleVariable "W" (.str "zz") .bool Value.none true
      true 1 = .error (.valueError ("Value provided for variable " ++
        quoted "W" ++ " of type bool is invalid: " ++ quoted "zz")) := by
    rw [process]
    simp [Value.isNone, processSome, isOptional, processBoolVal, pyMem, pyEq,
      pyStr]
  constructor
  · exact c1_union_order.1 sampleVariable "W" (.str "zz") [.int] .str []
      (.str "zz") Value.none true true 0 rfl rfl
      (by
        intro t' ht'
        simp only [List.mem_singleton] at ht'
        subst ht'
        exact ⟨_, hintfail, rfl⟩)
      hstrok rfl
  · refine c1_union_order.2.1 sampleVariable "W" (.str "zz") [.int, .bool] _
      Value.none true true 0 rfl rfl ?_
    refine List.Forall₂.cons ⟨_, hintfail, rfl, rfl⟩ ?_
    refine List.Forall₂.cons ⟨_, hboolfail, rfl, rfl⟩ List.Forall₂.nil

/-- C2 counterexample: for the Integer scalar type in permissive mode, the
malformed literal `"abc"` does *not* fail with a key-path-prefixed
InvalidNumeric message: `int("abc")` raises a `ValueError`, which the
numeric branch's `except (InvalidOperation, TypeError)` clause does not
catch, so Python's own message propagates and never mentions the key path
`MYVAR`. -/
theorem c2_counterexample :
    process sampleVariable "MYVAR" (.str "abc") .int Value.none true true 0 =
      .error (.valueError ("invalid literal for int() with base 10: " ++
        quoted "abc")) ∧
    strContains ("invalid literal for int() with base 10: " ++ quoted "abc")
      "MYVAR" = false := by
  constructor
  · have h1 : pyIntCons (.str "abc") = .error (.uncaughtValue
        ("invalid literal for int() with base 10: " ++ quoted "abc")) := rfl
    rw [process]
    simp [Value.isNone, processSome, isOptional, processIntVal, h1]
  · rfl

/-- C2 amended: for the Decimal scalar type, numeric construction failure
on a malformed literal fails with the key-path-prefixed InvalidNumeric
message; for the Integer scalar type, a failure raising `TypeError` (a
non-numeric, non-string raw value) is likewise prefixed, but a malformed
string literal propagates Python's own un-prefixed `ValueError` message. -/
theorem c2_amended :
    (∀ (v : Variable) (keyPath s : String) (d : Value) (ex permissive : Bool)
      (dep : Nat), parseDecPy s = Option.none →
      process v keyPath (.str s) .decimal d ex permissive dep =
        .error (.valueError ("Value provided for variable " ++ quoted keyPath ++
          " of type Decimal is invalid: " ++ quoted s))) ∧
    (∀ (v : Variable) (keyPath s : String) (d : Value) (ex permissive : Bool)
      (dep : Nat), parseIntPy s = Option.none →
      process v keyPath (.str s) .int d ex permissive dep =
        .error (.valueError ("invalid literal for int() with base 10: " ++
          quoted s))) ∧
    (∀ (v : Variable) (keyPath : String) (entries : List (Value × Value))
      (d : Value) (ex permissive : Bool) (dep : Nat),
      process v keyPath (.dict entries) .int d ex permissive dep =
        .error (.valueError ("Value provided for variable " ++ quoted keyPath ++
          " of type int is invalid: " ++ quoted (pyStr (.dict entries))))) := by
  refine ⟨?_, ?_, ?_⟩
  · intro v keyPath s d ex permissive dep hparse
    rw [process]
    have h1 : pyDecCons (.str s) = .error .caught := by
      simp [pyDecCons, hparse]
    simp [Value.isNone, processSome, isOptional, processDecimalVal, h1, pyStr]
  · intro v keyPath s d ex permissive dep hparse
    rw [process]
    have h1 : pyIntCons (.str s) = .error (.uncaughtValue
        ("invalid literal for int() with base 10: " ++ quoted s)) := by
      simp [pyIntCons, hparse, quoted, ← String.append_assoc]
    simp [Value.isNone, processSome, isOptional, processIntVal, h1]
  · intro v keyPath entries d ex permissive dep
    rw [process]
    have h1 : pyIntCons (.dict entries) = .error .caught := rfl
    simp [Value.isNone, processSome, isOptional, processIntVal, h1, pyStr]

/-- Witness for `c2_amended`, at the malformed literal `"abc"` and an
empty-dict raw value. -/
theorem c2_amended_witness :
    parseDecPy "abc" = Option.none ∧ parseIntPy "abc" = Option.none ∧
    process sampleVariable "MYVAR2" (.str "abc") .decimal Value.none true true 0 =
      .error (.valueError ("Value provided for variable " ++ quoted "MYVAR2" ++
        " of type Decimal is invalid: " ++ quoted "abc")) ∧
    process sampleVariable "MYVAR2" (.str "abc") .int Value.none true true 0 =
      .error (.valueError ("invalid literal for int() with base 10: " ++
        quoted "abc")) ∧
    process sampleVariable "MYVAR2" (.dict []) .int Value.none true true 0 =
      .error (.valueError ("Value provided for variable " ++ quoted "MYVAR2" ++
        " of type int is invalid: " ++ quoted (pyStr (.dict [])))) :=
  ⟨rfl, rfl,
    c2_amended.1 sampleVariable "MYVAR2" "abc" Value.none true true 0 rfl,
    c2_amended.2.1 sampleVariable "MYVAR2" "abc" Value.none true true 0 rfl,
    c2_amended.2.2 sampleVariable "MYVAR2" [] Value.none true true 0⟩

theorem processFields_ok_shape (v : Variable) (keyPath sname : String)
    (flds : List (String × VType × Option Value))
    (working : List (Value × Value)) (kwargs : List (String × Value))
    (permissive : Bool) (depth : Nat) (r : Value)
    (h : processFields v keyPath sname flds working kwargs permissive depth =
      .ok r) : ∃ fl, r = .structInst sname fl := by
  induction flds generalizing working kwargs with
  | nil =>
    rw [processFields] at h
    by_cases hw : working.isEmpty
    · simp only [hw, if_true] at h
      exact ⟨kwargs, by injection h with h2; exact h2.symm⟩
    · simp only [hw, Bool.false_eq_true, if_false] at h
      split at h <;> simp at h
  | cons f rest ih =>
    obtain ⟨fname, ftype, fdefault⟩ := f
    rw [processFields] at h
    split at h
    · simp at h
    · exact ih _ _ h

theorem processSome_struct_ok_shape (v : Variable) (keyPath : String)
    (value : Value) (sname : String)
    (flds : List (String × VType × Option Value)) (permissive : Bool)
    (dep : Nat) (r : Value)
    (h : processSome v keyPath value (.struct sname flds) permissive dep =
      .ok r) : ∃ fl, r = .structInst sname fl := by
  rw [processSome] at h
  simp only [show isOptional (.struct sname flds) = false from rfl,
    Bool.false_eq_true, dite_false] at h
  split at h
  · rename_i iname ifields
    by_cases hb : (iname == sname) = true
    · simp only [hb, if_true] at h
      have : iname = sname := by
        have := hb
        simpa using this
      injection h with h2
      exact ⟨ifields, by rw [← h2, this]⟩
    · simp only [hb, if_false] at h
      simp at h
  · exact processFields_ok_shape v keyPath sname flds _ [] permissive dep r h
  · simp at h

theorem process_struct_ok_shape (v : Variable) (keyPath : String)
    (value : Value) (sname : String)
    (flds : List (String × VType × Option Value)) (d : Value)
    (ex permissive : Bool) (dep : Nat) (r : Value)
    (h : process v keyPath value (.struct sname flds) d ex permissive dep =
      .ok r) : ∃ fl, r = .structInst sname fl := by
  have hopt : isOptional (.struct sname flds) = false := rfl
  rw [process] at h
  by_cases hv : value.isNone
  · simp only [hv, if_true] at h
    by_cases hex : ex
    · simp [hex, hopt] at h
    · simp only [hex, Bool.false_eq_true, if_false] at h
      by_cases hd : d.isNone
      · simp only [hd, if_true, hopt, Bool.not_false, if_true] at h
        split at h <;> simp at h
      · simp only [hd, Bool.false_eq_true, if_false] at h
        exact processSome_struct_ok_shape v keyPath d sname flds permissive
          (dep + 1) r h
  · simp only [hv, Bool.false_eq_true, if_false] at h
    exact processSome_struct_ok_shape v keyPath value sname flds permissive dep
      r h

/-- C6: a raw value that is already an instance of the declared struct
(dataclass) type passes through unchanged without field re-validation; in
particular every successful struct coercion is such an instance, so struct
coercion is idempotent: re-processing a successful output returns it
unchanged. -/
theorem c6_struct_passthrough_idempotent :
    (∀ (v : Variable) (keyPath sname : String) (ifl : List (String × Value))
      (flds : List (String × VType × Option Value)) (d : Value)
      (ex permissive : Bool) (dep : Nat),
      process v keyPath (.structInst sname ifl) (.struct sname flds) d ex
        permissive dep = .ok (.structInst sname ifl)) ∧
    (∀ (v : Variable) (keyPath sname : String) (raw : Value)
      (flds : List (String × VType × Option Value)) (d : Value)
      (ex permissive : Bool) (dep : Nat) (out : Value),
      process v keyPath raw (.struct sname flds) d ex permissive dep = .ok out →
      process v keyPath out (.struct sname flds) d ex permissive dep = .ok out) := by
  have hpass : ∀ (v : Variable) (keyPath sname : String)
      (ifl : List (String × Value))
      (flds : List (String × VType × Option Value)) (d : Value)
      (ex permissive : Bool) (dep : Nat),
      process v keyPath (.structInst sname ifl) (.struct sname flds) d ex
        permissive dep = .ok (.structInst sname ifl) := by
    intro v keyPath sname ifl flds d ex permissive dep
    rw [process]
    simp [Value.isNone, processSome, isOptional]
  refine ⟨hpass, ?_⟩
  intro v keyPath sname raw flds d ex permissive dep out h
  obtain ⟨fl, rfl⟩ := process_struct_ok_shape v keyPath raw sname flds d ex
    permissive dep out h
  exact hpass v keyPath sname fl flds d ex permissive dep

/-- Witness for `c6_struct_passthrough_idempotent`: a one-field struct coerced
from a mapping, then re-processed unchanged. -/
theorem c6_struct_passthrough_idempotent_witness :
    process sampleVariable "S" (.dict [(.str "a", .int 7)])
      (.struct "P" [("a", .int, Option.none)]) Value.none true false 0 =
      .ok (.structInst "P" [("a", .int 7)]) ∧
    process sampleVariable "S" (.structInst "P" [("a", .int 7)])
      (.struct "P" [("a", .int, Option.none)]) Value.none true false 0 =
      .ok (.structInst "P" [("a", .int 7)]) := by
  have h1 : process sampleVariable "S" (.dict [(.str "a", .int 7)])
      (.struct "P" [("a", .int, Option.none)]) Value.none true false 0 =
      .ok (.structInst "P" [("a", .int 7)]) := by
    rw [process]
    have hint : process sampleVariable "S.a" (.int 7) .int
        Value.none true false 1 = .ok (.int 7) := by
      rw [process]
      simp [Value.isNone, processSome, isOptional, processIntVal, pyIntCons,
        Value.isNumericInstance]
    simp [Value.isNone, processSome, isOptional, processFields, assocLookup,
      pyEq, assocErase, hint]
  exact ⟨h1, c6_struct_passthrough_idempotent.2 sampleVariable "S" "P"
    (.dict [(.str "a", .int 7)]) [("a", .int, Option.none)] Value.none true
    false 0 (.structInst "P" [("a", .int 7)]) h1⟩

/-- The key consumption performed by the struct field loop: for each
declared field in order, a present same-named key is deleted from the
working copy; what remains after all fields are the unrecognized keys. -/
def consumeFields (flds : List (String × VType × Option Value))
    (working : List (Value × Value)) : List (Value × Value) :=
  match flds with
  | [] => working
  | f :: rest =>
    consumeFields rest
      (if (assocLookup working (Value.str f.1)).isSome then
        assocErase working (Value.str f.1)
      else working)

theorem pyEq_str_right_eq (k : Value) (a b : String)
    (h : pyEq k (Value.str a) = true) : pyEq k (Value.str b) = (a == b) := by
  cases k <;> simp [pyEq] at h ⊢ <;> simp [h]

theorem assocLookup_erase_ne (working : List (Value × Value)) (f g : String)
    (hne : (f == g) = false) :
    assocLookup (assocErase working (Value.str f)) (Value.str g) =
      assocLookup working (Value.str g) := by
  induction working with
  | nil => simp [assocErase]
  | cons kv rest ih =>
    obtain ⟨k, val⟩ := kv
    by_cases hk : pyEq k (Value.str f) = true
    · rw [assocErase]
      simp only [hk, if_true]
      have hkg : pyEq k (Value.str g) = false := by
        rw [pyEq_str_right_eq k f g hk]
        exact hne
      rw [assocLookup]
      simp [hkg]
    · have hk' : pyEq k (Value.str f) = false := by
        cases hh : pyEq k (Value.str f)
        · rfl
        · exact absurd hh hk
      rw [assocErase]
      simp only [hk', Bool.false_eq_true, if_false]
      rw [assocLookup, assocLookup]
      by_cases hkg : pyEq k (Value.str g) = true
      · simp [hkg]
      · have hkg' : pyEq k (Value.str g) = false := by
          cases hh : pyEq k (Value.str g)
          · rfl
          · exact absurd hh hkg
        simp [hkg', ih]

theorem processFields_leftover (v : Variable) (keyPath sname : String)
    (flds : List (String × VType × Option Value)) :
    ∀ (working : List (Value × Value)) (kwargs : List (String × Value))
      (permissive : Bool) (depth : Nat),
      (flds.map Prod.fst).Nodup →
      (∀ f ∈ flds, ∃ rv, process v (keyPath ++ "." ++ f.1)
        ((assocLookup working (Value.str f.1)).getD Value.none) f.2.1
        ((f.2.2).getD Value.none) (assocLookup working (Value.str f.1)).isSome
        permissive (depth + 1) = .ok rv) →
      consumeFields flds working ≠ [] →
      (consumeFields flds working).all (fun kv => kv.1.isStrVal) = true →
      processFields v keyPath sname flds working kwargs permissive depth =
        .error (.valueError ("One or more keys unrecognized for dataclass " ++
          sname ++ ": " ++ String.intercalate " "
          ((consumeFields flds working).map (fun kv => pyStr kv.1)))) := by
  induction flds with
  | nil =>
    intro working kwargs permissive depth hnodup hall hne hstr
    rw [consumeFields] at hne hstr
    rw [processFields]
    have hw : working.isEmpty = false := by
      cases working
      · exact absurd rfl hne
      · rfl
    simp only [hw, Bool.false_eq_true, if_false, hstr, if_true]
    rw [consumeFields]
  | cons f rest ih =>
    obtain ⟨fname, ftype, fdefault⟩ := f
    intro working kwargs permissive depth hnodup hall hne hstr
    rcases hall ⟨fname, ftype, fdefault⟩ (by simp) with ⟨rv, hrv⟩
    rw [processFields]
    simp only at hrv
    rw [hrv]
    have hnodup' : (rest.map Prod.fst).Nodup := (List.nodup_cons.mp hnodup).2
    have hnotin : fname ∉ rest.map Prod.fst := (List.nodup_cons.mp hnodup).1
    rw [consumeFields] at hne hstr
    simp only at hne hstr
    apply ih _ _ permissive depth hnodup' _ hne hstr
    intro g hg
    rcases hall g (List.mem_cons_of_mem _ hg) with ⟨rg, hrg⟩
    have hneq : (fname == g.1) = false := by
      have hmem : g.1 ∈ rest.map Prod.fst := List.mem_map_of_mem Prod.fst hg
      cases hb : fname == g.1
      · rfl
      · exact absurd (by rw [eq_of_beq hb]; exact hmem) hnotin
    cases hsome : (assocLookup working (Value.str fname)).isSome with
    | false => simpa [hsome] using ⟨rg, hrg⟩
    | true =>
      simp only [hsome, if_true]
      rw [assocLookup_erase_ne working fname g.1 hneq]
      exact ⟨rg, hrg⟩

/-- C7: for a struct (dataclass) type given a mapping, when every declared
field resolves (consuming same-named keys from the working copy of the
mapping, field names being distinct) and keys remain afterwards, the whole
coercion fails with the unrecognized-key error listing every leftover key;
concretely, fields `{a: Integer, b: Integer}` with raw mapping
`{"a": 1, "b": 2, "c": 3}` fail naming `c`. -/
theorem c7_unrecognized_keys :
    (∀ (v : Variable) (keyPath sname : String)
      (flds : List (String × VType × Option Value))
      (entries : List (Value × Value)) (d : Value) (ex permissive : Bool)
      (dep : Nat),
      (flds.map Prod.fst).Nodup →
      (∀ f ∈ flds, ∃ rv, process v (keyPath ++ "." ++ f.1)
        ((assocLookup entries (Value.str f.1)).getD Value.none) f.2.1
        ((f.2.2).getD Value.none) (assocLookup entries (Value.str f.1)).isSome
        permissive (dep + 1) = .ok rv) →
      consumeFields flds entries ≠ [] →
      (consumeFields flds entries).all (fun kv => kv.1.isStrVal) = true →
      process v keyPath (.dict entries) (.struct sname flds) d ex permissive
        dep = .error (.valueError
          ("One or more keys unrecognized for dataclass " ++ sname ++ ": " ++
            String.intercalate " "
            ((consumeFields flds entries).map (fun kv => pyStr kv.1))))) ∧
    process sampleVariable "X"
      (.dict [(.str "a", .int 1), (.str "b", .int 2), (.str "c", .int 3)])
      (.struct "S" [("a", .int, Option.none), ("b", .int, Option.none)])
      Value.none true false 0 =
      .error (.valueError
        ("One or more keys unrecognized for dataclass S: c")) := by
  constructor
  · intro v keyPath sname flds entries d ex permissive dep hnodup hall hne hstr
    rw [process]
    simp only [show (Value.dict entries).isNone = false from rfl,
      Bool.false_eq_true, if_false]
    rw [processSome]
    simp only [show isOptional (.struct sname flds) = false from rfl,
      Bool.false_eq_true, dite_false]
    exact processFields_leftover v keyPath sname flds entries [] permissive dep
      hnodup hall hne hstr
  · have ha : process sampleVariable "X.a" (.int 1) .int Value.none true false
        1 = .ok (.int 1) := by
      rw [process]
      simp [Value.isNone, processSome, isOptional, processIntVal, pyIntCons,
        Value.isNumericInstance]
    have hb : process sampleVariable "X.b" (.int 2) .int Value.none true false
        1 = .ok (.int 2) := by
      rw [process]
      simp [Value.isNone, processSome, isOptional, processIntVal, pyIntCons,
        Value.isNumericInstance]
    rw [process]
    simp [Value.isNone, processSome, isOptional, processFields, assocLookup,
      pyEq, assocErase, ha, hb, pyStr, Value.isStrVal, String.intercalate,
      String.intercalate.go]

/-- Witness for `c7_unrecognized_keys`: the general leftover-key theorem
applied at the concrete two-field struct and three-key mapping. -/
theorem c7_unrecognized_keys_witness :
    process sampleVariable "X"
      (.dict [(.str "a", .int 1), (.str "b", .int 2), (.str "c", .int 3)])
      (.struct "S2" [("a", .int, Option.none), ("b", .int, Option.none)])
      Value.none true false 0 =
      .error (.valueError
        ("One or more keys unrecognized for dataclass S2: c")) := by
  have ha : process sampleVariable "X.a" (.int 1) .int Value.none true false
      1 = .ok (.int 1) := by
    rw [process]
    simp [Value.isNone, processSome, isOptional, processIntVal, pyIntCons,
      Value.isNumericInstance]
  have hb : process sampleVariable "X.b" (.int 2) .int Value.none true false
      1 = .ok (.int 2) := by
    rw [process]
    simp [Value.isNone, processSome, isOptional, processIntVal, pyIntCons,
      Value.isNumericInstance]
  have hcf : consumeFields [("a", .int, Option.none), ("b", .int, Option.none)]
      [(.str "a", .int 1), (.str "b", .int 2), (.str "c", .int 3)] =
      [(.str "c", .int 3)] := by
    simp [consumeFields, assocLookup, assocErase, pyEq]
  have := c7_unrecognized_keys.1 sampleVariable "X" "S2"
    [("a", .int, Option.none), ("b", .int, Option.none)]
    [(.str "a", .int 1), (.str "b", .int 2), (.str "c", .int 3)]
    Value.none true false 0 (by simp)
    (by
      intro f hf
      simp only [List.mem_cons, List.not_mem_nil, or_false] at hf
      rcases hf with rfl | rfl
      · refine ⟨Value.int 1, ?_⟩
        have hlk : assocLookup
            [(Value.str "a", Value.int 1), (Value.str "b", Value.int 2),
              (Value.str "c", Value.int 3)] (Value.str "a") =
            some (Value.int 1) := by
          simp [assocLookup, pyEq]
        rw [hlk]
        simpa using ha
      · refine ⟨Value.int 2, ?_⟩
        have hlk : assocLookup
            [(Value.str "a", Value.int 1), (Value.str "b", Value.int 2),
              (Value.str "c", Value.int 3)] (Value.str "b") =
            some (Value.int 2) := by
          simp [assocLookup, pyEq]
        rw [hlk]
        simpa using hb)
    (by simp [hcf]) (by simp [hcf, Value.isStrVal])
  rw [hcf] at this
  simpa [pyStr, String.intercalate, String.intercalate.go] using this

theorem resolveDeprecatedGo_none (vname : String) (cfg : List (String × Value))
    (ds : List DepName) (warnings : List String)
    (h : ∀ d ∈ ds, (checkKey cfg d.name).1 = Option.none) :
    resolveDeprecatedGo vname cfg ds warnings =
      (Option.none, Value.none, warnings) := by
  induction ds with
  | nil => rfl
  | cons d rest ih =>
    have hd := h d (by simp)
    rcases hck : checkKey cfg d.name with ⟨fst, snd⟩
    rw [resolveDeprecatedGo, hck]
    rw [hck] at hd
    simp only at hd
    subst hd
    exact ih (fun d' hd' => h d' (List.mem_cons_of_mem d hd'))

theorem resolveDeprecatedGo_first (vname : String) (cfg : List (String × Value))
    (ds1 : List DepName) (d : DepName) (ds2 : List DepName)
    (warnings : List String)
    (habsent : ∀ d' ∈ ds1, (checkKey cfg d'.name).1 = Option.none)
    (e : String) (val : Value)
    (hpresent : checkKey cfg d.name = (some e, val)) :
    resolveDeprecatedGo vname cfg (ds1 ++ d :: ds2) warnings =
      (some e, (if val.isNone then val else d.transform val),
        warnings ++ [deprecationWarning d.name vname]) := by
  induction ds1 generalizing warnings with
  | nil =>
    rw [List.nil_append, resolveDeprecatedGo, hpresent]
  | cons a as ih =>
    have ha := habsent a (by simp)
    rcases hck : checkKey cfg a.name with ⟨fst, snd⟩
    rw [List.cons_append, resolveDeprecatedGo, hck]
    rw [hck] at ha
    simp only at ha
    subst ha
    exact ih warnings (fun d' hd' => habsent d' (List.mem_cons_of_mem a hd'))

/-- A variable named `NEW` with deprecated alias `OLD`, as in the spec's
deprecated-alias example. -/
def newOldVariable : Variable :=
  ⟨"NEW", .int, "", Value.none, [.plain "OLD"], Option.none, false⟩

/-- C8: `compile` scans the declared deprecated aliases in order; (1) for
the first alias present in the raw mapping it appends exactly one
deprecation warning, applies that alias's value transform (identity when
none is declared — `DepName.transform`) to a non-null raw value, and hands
the result to the coercer explicitly specified, without consulting the
canonical name; (2) when no alias matches, the canonical name is looked up
instead and no warning is appended; (3) concretely, a variable `NEW` with
alias `OLD` on `{"OLD": 5}` compiles to (presence `OLD`, Integer `5`) with
exactly one warning, and that warning names both `OLD` and `NEW`. -/
theorem c8_compile_alias :
    (∀ (v : Variable) (cfg : List (String × Value)) (warnings : List String)
      (permissive : Bool) (ds1 : List DepName) (d : DepName)
      (ds2 : List DepName) (e : String) (val : Value),
      v.deprecated_names = ds1 ++ d :: ds2 →
      (∀ d' ∈ ds1, (checkKey cfg d'.name).1 = Option.none) →
      checkKey cfg d.name = (some e, val) →
      v.compile cfg warnings permissive =
        ((process v v.name (if val.isNone then val else d.transform val) v.type
          v.default true permissive 0).map (fun p => (some e, p)),
          warnings ++ [deprecationWarning d.name v.name])) ∧
    (∀ (v : Variable) (cfg : List (String × Value)) (warnings : List String)
      (permissive : Bool),
      (∀ d ∈ v.deprecated_names, (checkKey cfg d.name).1 = Option.none) →
      v.compile cfg warnings permissive =
        ((process v v.name (checkKey cfg v.name).2 v.type v.default
          (checkKey cfg v.name).1.isSome permissive 0).map
          (fun p => ((checkKey cfg v.name).1, p)), warnings)) ∧
    newOldVariable.compile [("OLD", .int 5)] [] false =
      (.ok (some "OLD", .int 5), [deprecationWarning "OLD" "NEW"]) ∧
    strContains (deprecationWarning "OLD" "NEW") "OLD" = true ∧
    strContains (deprecationWarning "OLD" "NEW") "NEW" = true := by
  refine ⟨?_, ?_, ?_, rfl, rfl⟩
  · intro v cfg warnings permissive ds1 d ds2 e val hdn habsent hpresent
    rw [Variable.compile, hdn,
      resolveDeprecatedGo_first v.name cfg ds1 d ds2 warnings habsent e val
        hpresent]
    cases hp : process v v.name (if val.isNone then val else d.transform val)
        v.type v.default true permissive 0 with
    | ok p => simp [hp, Except.map]
    | error err => simp [hp, Except.map]
  · intro v cfg warnings permissive habsent
    rw [Variable.compile, resolveDeprecatedGo_none v.name cfg
      v.deprecated_names warnings habsent]
    cases hp : process v v.name (checkKey cfg v.name).2 v.type v.default
        (checkKey cfg v.name).1.isSome permissive 0 with
    | ok p => simp [hp, Except.map]
    | error err => simp [hp, Except.map]
  · have hproc : process
        ⟨"NEW", .int, "", Value.none, [.plain "OLD"], Option.none, false⟩
        "NEW" (.int 5) .int Value.none true false 0 = .ok (.int 5) := by
      rw [process]
      simp [Value.isNone, processSome, isOptional, processIntVal, pyIntCons,
        Value.isNumericInstance]
    rw [Variable.compile]
    simp [resolveDeprecatedGo, checkKey, DepName.name, DepName.transform,
      Value.isNone, newOldVariable, hproc]

/-- Witness for `c8_compile_alias`: the first-present-alias clause applied
with one absent alias before the matching one, and the no-alias clause
applied to a variable whose only alias is absent. -/
theorem c8_compile_alias_witness :
    Variable.compile
      ⟨"N8", .int, "", Value.none, [.plain "A8", .plain "OLD8"], Option.none,
        false⟩ [("OLD8", .int 7)] [] false =
      (.ok (some "OLD8", .int 7),
        [deprecationWarning "OLD8" "N8"]) ∧
    Variable.compile
      ⟨"M8", .int, "", Value.none, [.plain "A8"], Option.none, false⟩
      [("M8", .int 9)] [] false = (.ok (some "M8", .int 9), []) := by
  constructor
  · have h := c8_compile_alias.1
      ⟨"N8", .int, "", Value.none, [.plain "A8", .plain "OLD8"], Option.none,
        false⟩ [("OLD8", .int 7)] [] false [.plain "A8"] (.plain "OLD8") []
      "OLD8" (.int 7) rfl
      (by
        intro d' hd'
        simp only [List.mem_singleton] at hd'
        subst hd'
        simp [checkKey, DepName.name])
      (by simp [checkKey, DepName.name])
    rw [h]
    have hproc : process
        ⟨"N8", .int, "", Value.none, [.plain "A8", .plain "OLD8"], Option.none,
          false⟩ "N8" (.int 7) .int Value.none true false 0 = .ok (.int 7) := by
      rw [process]
      simp [Value.isNone, processSome, isOptional, processIntVal, pyIntCons,
        Value.isNumericInstance]
    simp [Value.isNone, DepName.transform, DepName.name, hproc, Except.map]
  · have h := c8_compile_alias.2.1
      ⟨"M8", .int, "", Value.none, [.plain "A8"], Option.none, false⟩
      [("M8", .int 9)] [] false
      (by
        intro d' hd'
        simp only [List.mem_singleton] at hd'
        subst hd'
        simp [checkKey, DepName.name])
    rw [h]
    have hproc : process
        ⟨"M8", .int, "", Value.none, [.plain "A8"], Option.none, false⟩
        "M8" (.int 9) .int Value.none true false 0 = .ok (.int 9) := by
      rw [process]
      simp [Value.isNone, processSome, isOptional, processIntVal, pyIntCons,
        Value.isNumericInstance]
    simp [checkKey, hproc, Except.map]

theorem mem_foldl_insert_of_mem (l : List String) (acc : Finset String)
    (x : String) (h : x ∈ acc) :
    x ∈ l.foldl (fun a n => insert n a) acc := by
  induction l generalizing acc with
  | nil => exact h
  | cons a as ih => exact ih _ (Finset.mem_insert_of_mem h)

theorem mem_foldl_insert_self (l : List String) (acc : Finset String)
    (n : String) (h : n ∈ l) :
    n ∈ l.foldl (fun a m => insert m a) acc := by
  induction l generalizing acc with
  | nil => cases h
  | cons a as ih =>
    rcases List.mem_cons.mp h with rfl | h2
    · exact mem_foldl_insert_of_mem as _ n (Finset.mem_insert_self n acc)
    · exact ih _ h2

/-- C9: the registration a Variable performs at construction
(`registerVariable` embeds `__post_init__`) is append-only on the
process-wide registry: every previously registered name survives, and the
canonical name and every deprecated alias name are registered afterwards.
(`Variable.compile` neither takes nor returns the registry in this
embedding, mirroring that the source `compile` never references
`known_variable_names`.) -/
theorem c9_registry_append_only (registry : Finset String) (v : Variable) :
    registry ⊆ registerVariable v registry ∧
    v.name ∈ registerVariable v registry ∧
    ∀ n ∈ v.aliasNames, n ∈ registerVariable v registry := by
  refine ⟨?_, ?_, ?_⟩
  · intro x hx
    exact mem_foldl_insert_of_mem _ _ x (Finset.mem_insert_of_mem hx)
  · exact mem_foldl_insert_of_mem _ _ _ (Finset.mem_insert_self _ _)
  · intro n hn
    exact mem_foldl_insert_self _ _ n hn

/-- Witness for `c9_registry_append_only`: a pre-registered name survives
registration, and the new variable's name and alias are registered. -/
theorem c9_registry_append_only_witness :
    "R9" ∈ registerVariable
      ⟨"V9", .int, "", Value.none, [.plain "A9"], Option.none, false⟩
      {"R9"} ∧
    "V9" ∈ registerVariable
      ⟨"V9", .int, "", Value.none, [.plain "A9"], Option.none, false⟩
      {"R9"} ∧
    "A9" ∈ registerVariable
      ⟨"V9", .int, "", Value.none, [.plain "A9"], Option.none, false⟩
      {"R9"} := by
  have h := c9_registry_append_only {"R9"}
    ⟨"V9", .int, "", Value.none, [.plain "A9"], Option.none, false⟩
  exact ⟨h.1 (by simp), h.2.1,
    h.2.2 "A9" (by simp [Variable.aliasNames, DepName.name])⟩

/-- C10: when the first matched deprecated alias is present with a *null*
stored value, the alias's value transform is not invoked — the resolution
result, and the whole compile outcome, are independent of the transform
function — and the null is handed to the coercer marked explicitly
specified: a non-optional type then fails with the null-on-required error
(one deprecation warning still recorded), and an optional type yields a
successful null. -/
theorem c10_null_alias_no_transform :
    (∀ (vname aname : String) (f : Value → Value)
      (cfg : List (String × Value)) (w : List String),
      checkKey cfg aname = (some aname, Value.none) →
      resolveDeprecatedGo vname cfg [.transformed aname f] w =
        (some aname, Value.none, w ++ [deprecationWarning aname vname])) ∧
    (∀ (name desc : String) (t : VType) (d : Value) (aname : String)
      (f : Value → Value) (units : Option String) (pdk : Bool)
      (cfg : List (String × Value)) (w : List String) (permissive : Bool),
      checkKey cfg aname = (some aname, Value.none) →
      isOptional t = false →
      Variable.compile ⟨name, t, desc, d, [.transformed aname f], units, pdk⟩
        cfg w permissive =
        (.error (.valueError ("Non-optional variable " ++ quoted name ++
          " explicitly assigned a null value.")),
          w ++ [deprecationWarning aname name])) ∧
    (∀ (name desc : String) (t : VType) (d : Value) (aname : String)
      (f : Value → Value) (units : Option String) (pdk : Bool)
      (cfg : List (String × Value)) (w : List String) (permissive : Bool),
      checkKey cfg aname = (some aname, Value.none) →
      isOptional t = true →
      Variable.compile ⟨name, t, desc, d, [.transformed aname f], units, pdk⟩
        cfg w permissive =
        (.ok (some aname, Value.none),
          w ++ [deprecationWarning aname name])) := by
  have hres : ∀ (vname aname : String) (f : Value → Value)
      (cfg : List (String × Value)) (w : List String),
      checkKey cfg aname = (some aname, Value.none) →
      resolveDeprecatedGo vname cfg [.transformed aname f] w =
        (some aname, Value.none, w ++ [deprecationWarning aname vname]) := by
    intro vname aname f cfg w hpresent
    rw [resolveDeprecatedGo]
    have hn : DepName.name (.transformed aname f) = aname := rfl
    rw [hn, hpresent]
    simp [Value.isNone, DepName.name]
  refine ⟨hres, ?_, ?_⟩
  · intro name desc t d aname f units pdk cfg w permissive hpresent hopt
    rw [Variable.compile]
    simp only [hres name aname f cfg w hpresent]
    have hproc : process
        ⟨name, t, desc, d, [.transformed aname f], units, pdk⟩ name Value.none
        t d true permissive 0 =
        .error (.valueError ("Non-optional variable " ++ quoted name ++
          " explicitly assigned a null value.")) := by
      rw [process]
      simp [Value.isNone, hopt]
    simp [hproc]
  · intro name desc t d aname f units pdk cfg w permissive hpresent hopt
    rw [Variable.compile]
    simp only [hres name aname f cfg w hpresent]
    have hproc : process
        ⟨name, t, desc, d, [.transformed aname f], units, pdk⟩ name Value.none
        t d true permissive 0 = .ok Value.none := by
      rw [process]
      simp [Value.isNone, hopt]
    simp [hproc]

/-- Witness for `c10_null_alias_no_transform`: an alias present with a null
value, a transform that would be visible if it were invoked, a non-optional
Integer type failing null-on-required, and an optional type yielding null. -/
theorem c10_null_alias_no_transform_witness :
    resolveDeprecatedGo "VN" [("OLDN", Value.none)]
      [.transformed "OLDN" (fun _ => Value.int 999)] [] =
      (some "OLDN", Value.none, [deprecationWarning "OLDN" "VN"]) ∧
    Variable.compile
      ⟨"VN", .int, "", Value.none,
        [.transformed "OLDN" (fun _ => Value.int 999)], Option.none, false⟩
      [("OLDN", Value.none)] [] false =
      (.error (.valueError ("Non-optional variable " ++ quoted "VN" ++
        " explicitly assigned a null value.")),
        [deprecationWarning "OLDN" "VN"]) ∧
    Variable.compile
      ⟨"VN", .union [.int, .noneT], "", Value.none,
        [.transformed "OLDN" (fun _ => Value.int 999)], Option.none, false⟩
      [("OLDN", Value.none)] [] false =
      (.ok (some "OLDN", Value.none), [deprecationWarning "OLDN" "VN"]) := by
  have hck : checkKey [("OLDN", Value.none)] "OLDN" =
      (some "OLDN", Value.none) := by
    simp [checkKey]
  refine ⟨?_, ?_, ?_⟩
  · simpa using c10_null_alias_no_transform.1 "VN" "OLDN"
      (fun _ => Value.int 999) [("OLDN", Value.none)] [] hck
  · simpa using c10_null_alias_no_transform.2.1 "VN" "" .int Value.none "OLDN"
      (fun _ => Value.int 999) Option.none false [("OLDN", Value.none)] []
      false hck rfl
  · simpa using c10_null_alias_no_transform.2.2 "VN" ""
      (.union [.int, .noneT]) Value.none "OLDN" (fun _ => Value.int 999)
      Option.none false [("OLDN", Value.none)] [] false hck rfl

end OpenLane
